import Mathlib

/-!
Verification of the UrbanSound8K audio-classification notebook
(`doc/OldFiles/audio_classifier_tutorial.ipynb`).

The notebook's dataset accessor, accuracy report and learning-rate
schedule are embedded as executable Lean functions over `List ℚ`
(audio samples and accuracy are exact rationals standing for the
floating-point values of the source); the classifier network is
embedded over `ℝ` in a later section of this file.
-/

namespace AudioClassifier

/-- A CSV cell as read positionally by the notebook: either a string
(e.g. a file name) or an integer (e.g. a fold number or class id). -/
inductive Cell where
  | str : String → Cell
  | int : Int → Cell
deriving DecidableEq, Repr

/-- Python `str(...)` applied to a cell, as used when the fold number is
spliced into the audio file path. -/
def Cell.toStr : Cell → String
  | .str s => s
  | .int n => toString n

/-- Python string concatenation `... + self.file_names[index]` requires the
file name cell to actually be a string; anything else raises `TypeError`,
modelled as `none`. -/
def cellAsString : Cell → Option String
  | .str s => some s
  | _ => none

/-- The state of a constructed `UrbanSoundDataset`: the three parallel
lists filled by `__init__`, plus the stored audio directory and fold list. -/
structure UrbanSoundDataset where
  file_names : List Cell
  labels : List Cell
  folders : List Cell
  file_path : String
  folderList : List Cell
deriving DecidableEq, Repr

/-- The row loop of `UrbanSoundDataset.__init__`: for each CSV row, read
column 5 (the fold); if it lies in `folderList`, append column 0 to
`file_names`, column 6 to `labels` and column 5 to `folders`.  An
out-of-range positional access raises (`none`), exactly where Python's
`iloc` would. -/
def UrbanSoundDataset.initAux (folderList : List Cell) :
    List (List Cell) → UrbanSoundDataset → Option UrbanSoundDataset
  | [], acc => some acc
  | r :: rest, acc =>
    match r[5]? with
    | none => none
    | some fold =>
      if fold ∈ folderList then
        match r[0]?, r[6]? with
        | some name, some label =>
            UrbanSoundDataset.initAux folderList rest
              { acc with
                file_names := acc.file_names ++ [name],
                labels := acc.labels ++ [label],
                folders := acc.folders ++ [fold] }
        | _, _ => none
      else UrbanSoundDataset.initAux folderList rest acc

/-- `UrbanSoundDataset.__init__`: starts from empty lists and runs the row
loop, storing `file_path` and `folderList` on the object. -/
def UrbanSoundDataset.init (rows : List (List Cell)) (file_path : String)
    (folderList : List Cell) : Option UrbanSoundDataset :=
  UrbanSoundDataset.initAux folderList rows
    { file_names := [], labels := [], folders := [],
      file_path := file_path, folderList := folderList }

/-- `UrbanSoundDataset.__len__` returns `len(self.file_names)`. -/
def UrbanSoundDataset.len (ds : UrbanSoundDataset) : Nat :=
  ds.file_names.length

/-- The path formatting of `__getitem__`:
`self.file_path + "fold" + str(self.folders[index]) + "/" + self.file_names[index]`. -/
def mkPath (file_path : String) (fold : Cell) (name : String) : String :=
  file_path ++ "fold" ++ fold.toStr ++ "/" ++ name

/-- `torchaudio.transforms.DownmixMono`: collapse multi-channel audio to one
channel by averaging the channels of each frame. -/
def downmix (frames : List (List ℚ)) : List ℚ :=
  frames.map (fun fr => fr.sum / (fr.length : ℚ))

/-- Python slicing `soundData[::5]`: keep every fifth element, starting at
index 0. -/
def everyFifth : List ℚ → List ℚ
  | [] => []
  | x :: xs => x :: everyFifth (xs.drop 4)
termination_by l => l.length
decreasing_by
  simp only [List.length_drop, List.length_cons]
  omega

/-- The `tempData` buffer of `__getitem__`: a 160000-sample buffer that is
zero-initialised, receives the whole waveform when it is shorter than
160000 samples (leaving the tail zero), and otherwise receives the first
160000 samples. -/
def tempData (soundData : List ℚ) : List ℚ :=
  if soundData.length < 160000 then
    soundData ++ List.replicate (160000 - soundData.length) 0
  else
    soundData.take 160000

/-- The `soundFormatted` value of `__getitem__`: every fifth sample of the
padded/truncated buffer.  The buffer always holds exactly 160000 samples, so
the decimated list has exactly 32000 entries and fills the whole
`soundFormatted[:32000]` slice; the final `permute(1, 0)` only transposes
the tensor shape and does not change the sample values. -/
def soundFormatted (soundData : List ℚ) : List ℚ :=
  everyFifth (tempData soundData)

/-- `UrbanSoundDataset.__getitem__`: locate the path from the stored fold
and file name, load and downmix the audio through the decoding collaborator
`load`, format it to 32000 samples, and pair it with the stored label.
List accesses out of range raise (`none`), as in Python. -/
def UrbanSoundDataset.getItem (load : String → List (List ℚ))
    (ds : UrbanSoundDataset) (index : Nat) : Option (List ℚ × Cell) := do
  let fold ← ds.folders[index]?
  let name ← ds.file_names[index]?
  let nameStr ← cellAsString name
  let label ← ds.labels[index]?
  some (soundFormatted (downmix (load (mkPath ds.file_path fold nameStr))), label)

/-- `__getitem__` viewed as a method on the object state: it returns the
(possibly updated) object together with the result.  The Python body only
reads `self`, so the returned state is the input state. -/
def UrbanSoundDataset.getItemMethod (load : String → List (List ℚ))
    (ds : UrbanSoundDataset) (index : Nat) :
    Option (UrbanSoundDataset × (List ℚ × Cell)) := do
  let fold ← ds.folders[index]?
  let name ← ds.file_names[index]?
  let nameStr ← cellAsString name
  let label ← ds.labels[index]?
  some (ds, (soundFormatted (downmix (load (mkPath ds.file_path fold nameStr))), label))

/- ## Basic lemmas about the decimation pipeline -/

lemma everyFifth_length (l : List ℚ) : (everyFifth l).length = (l.length + 4) / 5 := by
  induction l using everyFifth.induct with
  | case1 => simp [everyFifth]
  | case2 x xs ih =>
    rw [everyFifth]
    simp only [List.length_cons, List.length_drop] at *
    omega

lemma getD_drop (l : List ℚ) (n i : Nat) (d : ℚ) :
    (l.drop n).getD i d = l.getD (n + i) d := by
  simp [List.getD_eq_getElem?_getD, List.getElem?_drop]

lemma everyFifth_getD (l : List ℚ) : ∀ i : Nat,
    (everyFifth l).getD i 0 = l.getD (5 * i) 0 := by
  induction l using everyFifth.induct with
  | case1 => intro i; simp [everyFifth]
  | case2 x xs ih =>
    intro i
    rw [everyFifth]
    cases i with
    | zero => simp
    | succ n =>
      have h5 : 5 * (n + 1) = (5 * n + 4) + 1 := by ring
      rw [List.getD_cons_succ, ih n, getD_drop, h5, List.getD_cons_succ]
      have hc : 4 + 5 * n = 5 * n + 4 := by omega
      rw [hc]

lemma mem_everyFifth (l : List ℚ) (x : ℚ) (hx : x ∈ everyFifth l) : x ∈ l := by
  induction l using everyFifth.induct with
  | case1 => simp [everyFifth] at hx
  | case2 y ys ih =>
    rw [everyFifth] at hx
    rcases List.mem_cons.mp hx with h | h
    · exact h ▸ List.mem_cons_self y ys
    · exact List.mem_cons_of_mem y (List.drop_subset 4 ys (ih h))

lemma tempData_length (soundData : List ℚ) : (tempData soundData).length = 160000 := by
  unfold tempData
  split
  · simp only [List.length_append, List.length_replicate]
    omega
  · simp only [List.length_take]
    omega

lemma soundFormatted_length (soundData : List ℚ) :
    (soundFormatted soundData).length = 32000 := by
  unfold soundFormatted
  rw [everyFifth_length, tempData_length]

lemma soundFormatted_zero_helper (soundData : List ℚ)
    (h1 : soundData.length < 160000) (h2 : ∀ x ∈ soundData, x = 0) :
    soundFormatted soundData = List.replicate 32000 0 := by
  have hlen := soundFormatted_length soundData
  have hmem : ∀ x ∈ soundFormatted soundData, x = 0 := by
    intro x hx
    have hx2 : x ∈ tempData soundData := mem_everyFifth _ _ hx
    unfold tempData at hx2
    rw [if_pos h1] at hx2
    rcases List.mem_append.mp hx2 with h | h
    · exact h2 x h
    · exact List.eq_of_mem_replicate h
  rw [← hlen]
  exact List.eq_replicate_of_mem hmem

/- ## Lemmas about construction of the dataset accessor -/

/-- The (name, fold, label) triples of the metadata rows that the `__init__`
loop keeps, in original row order: exactly the rows whose column 5 lies in
`folderList` and which expose columns 0 and 6. -/
def matchedTriples (rows : List (List Cell)) (folderList : List Cell) :
    List (Cell × Cell × Cell) :=
  rows.filterMap fun r =>
    match r[5]? with
    | none => none
    | some fold =>
      if fold ∈ folderList then
        match r[0]?, r[6]? with
        | some name, some label => some (name, fold, label)
        | _, _ => none
      else none

/-- The Boolean row predicate of the `__init__` loop: column 5 exists and
lies in the fold list. -/
def rowMatches (folderList : List Cell) (r : List Cell) : Bool :=
  r[5]?.any fun f => decide (f ∈ folderList)

lemma initAux_eq (folderList : List Cell) (rows : List (List Cell)) :
    ∀ acc ds, UrbanSoundDataset.initAux folderList rows acc = some ds →
      ds.file_names = acc.file_names ++ (matchedTriples rows folderList).map (fun t => t.1) ∧
      ds.labels = acc.labels ++ (matchedTriples rows folderList).map (fun t => t.2.2) ∧
      ds.folders = acc.folders ++ (matchedTriples rows folderList).map (fun t => t.2.1) ∧
      ds.file_path = acc.file_path ∧ ds.folderList = acc.folderList := by
  induction rows with
  | nil =>
    intro acc ds h
    simp only [UrbanSoundDataset.initAux, Option.some.injEq] at h
    subst h
    simp [matchedTriples]
  | cons r rest ih =>
    intro acc ds h
    rw [UrbanSoundDataset.initAux] at h
    cases h5 : r[5]? with
    | none => simp only [h5] at h; exact Option.noConfusion h
    | some fold =>
      simp only [h5] at h
      by_cases hmem : fold ∈ folderList
      · rw [if_pos hmem] at h
        cases h0 : r[0]? with
        | none => simp only [h0] at h; exact Option.noConfusion h
        | some name =>
          cases h6 : r[6]? with
          | none => simp only [h0, h6] at h; exact Option.noConfusion h
          | some label =>
            simp only [h0, h6] at h
            have hrec := ih _ _ h
            have htr : matchedTriples (r :: rest) folderList =
                (name, fold, label) :: matchedTriples rest folderList := by
              simp [matchedTriples, h5, hmem, h0, h6]
            rw [htr]
            simp only [List.map_cons] at *
            refine ⟨?_, ?_, ?_, ?_, ?_⟩ <;>
              simp_all [List.append_assoc]
      · rw [if_neg hmem] at h
        have hrec := ih _ _ h
        have htr : matchedTriples (r :: rest) folderList =
            matchedTriples rest folderList := by
          simp [matchedTriples, h5, hmem]
        rw [htr]
        exact hrec

lemma initAux_length (folderList : List Cell) (rows : List (List Cell)) :
    ∀ acc ds, UrbanSoundDataset.initAux folderList rows acc = some ds →
      ds.file_names.length =
        acc.file_names.length + rows.countP (rowMatches folderList) := by
  induction rows with
  | nil =>
    intro acc ds h
    simp only [UrbanSoundDataset.initAux, Option.some.injEq] at h
    subst h
    simp
  | cons r rest ih =>
    intro acc ds h
    rw [UrbanSoundDataset.initAux] at h
    cases h5 : r[5]? with
    | none => simp only [h5] at h; exact Option.noConfusion h
    | some fold =>
      simp only [h5] at h
      by_cases hmem : fold ∈ folderList
      · rw [if_pos hmem] at h
        cases h0 : r[0]? with
        | none => simp only [h0] at h; exact Option.noConfusion h
        | some name =>
          cases h6 : r[6]? with
          | none => simp only [h0, h6] at h; exact Option.noConfusion h
          | some label =>
            simp only [h0, h6] at h
            have hrec := ih _ _ h
            have hp : rowMatches folderList r = true := by
              simp [rowMatches, h5, hmem]
            rw [List.countP_cons_of_pos _ _ hp]
            simp only [List.length_append, List.length_cons, List.length_nil] at hrec
            omega
      · rw [if_neg hmem] at h
        have hrec := ih _ _ h
        have hp : rowMatches folderList r = false := by
          simp [rowMatches, h5, hmem]
        rw [List.countP_cons_of_neg _ _ (by simp [hp])]
        exact hrec

/- ## The evaluation phase's accuracy report -/

/-- The `correct` counter of `test`: the number of (predicted class, true
label) pairs that agree, accumulated over the test set. -/
def correctCount (pairs : List (Nat × Nat)) : Nat :=
  pairs.countP fun pt => pt.1 == pt.2

/-- The accuracy printed by `test`:
`100. * correct / len(test_loader.dataset)`, as an exact rational.  When
the test set is empty the Python float division raises
`ZeroDivisionError`, modelled as `none`. -/
def testAccuracy (pairs : List (Nat × Nat)) : Option ℚ :=
  if pairs.length = 0 then none
  else some (100 * (correctCount pairs : ℚ) / (pairs.length : ℚ))

/- ## The learning-rate schedule of the epoch loop -/

/-- `lr = 0.01` from `optim.Adam(model.parameters(), lr = 0.01, ...)`. -/
def initialLR : ℚ := 1 / 100

/-- `gamma = 0.1` from `StepLR(optimizer, step_size = 20, gamma = 0.1)`. -/
def stepGamma : ℚ := 1 / 10

/-- `step_size = 20` from `StepLR(optimizer, step_size = 20, gamma = 0.1)`. -/
def stepSize : Nat := 20

/-- The scheduler state: how many times `scheduler.step()` has run
(`last_epoch`), and the learning rate currently set on the optimizer. -/
structure SchedState where
  lastEpoch : Nat
  lr : ℚ
deriving DecidableEq, Repr

/-- Modelled from the spec: the learning-rate scheduler is supplied by the
external optimizer library (`torch.optim.lr_scheduler.StepLR`), which is not
part of this repository.  Per the spec it "reduces the optimizer's step size
by a fixed multiplicative factor every fixed number of epochs, independent of
observed loss": each `step()` advances the epoch counter and sets
`lr = initialLR * stepGamma ^ (lastEpoch / stepSize)`. -/
def StepLR.step (s : SchedState) : SchedState :=
  { lastEpoch := s.lastEpoch + 1,
    lr := initialLR * stepGamma ^ ((s.lastEpoch + 1) / stepSize) }

/-- The scheduler state right after `StepLR(optimizer, ...)` is constructed:
no explicit step has run and the optimizer still carries `initialLR`. -/
def StepLR.initState : SchedState :=
  { lastEpoch := 0, lr := initialLR }

/-- The scheduler state seen by epoch `e` of the loop
`for epoch in range(1, 11): scheduler.step(); train(...); test(...)`:
`loopSchedState 0` is the state before the loop, and epoch `e ≥ 1` trains
with state `loopSchedState e`, since the loop body steps the scheduler once
before calling `train`. -/
def loopSchedState : Nat → SchedState
  | 0 => StepLR.initState
  | e + 1 => StepLR.step (loopSchedState e)

lemma loopSchedState_eq (n : Nat) :
    loopSchedState n = ⟨n, initialLR * stepGamma ^ (n / stepSize)⟩ := by
  induction n with
  | zero => simp [loopSchedState, StepLR.initState]
  | succ e ih => simp [loopSchedState, StepLR.step, ih]

/- ## The classifier network `Net`

The notebook's floating-point tensors are modelled as real-valued
functions; a `c`-channel signal of temporal length `n` is a function
`Fin c → Fin n → ℝ`. -/

/-- Output temporal length of a sliding window of size `k` and stride `s`
over a length-`n` signal, as computed by `Conv1d`/`MaxPool1d`/`AvgPool1d`. -/
def convOut (k s n : Nat) : Nat := (n - k) / s + 1

lemma window_index_lt {k s n : Nat} (hk : k ≤ n) (_hs : 0 < s)
    (i : Fin (convOut k s n)) (j : Fin k) : s * i.val + j.val < n := by
  have h1 : i.val ≤ (n - k) / s := Nat.lt_succ_iff.mp i.isLt
  have h2 : s * i.val ≤ s * ((n - k) / s) := Nat.mul_le_mul_left s h1
  have h3 : (n - k) / s * s ≤ n - k := Nat.div_mul_le_self (n - k) s
  have h4 := j.isLt
  have h5 : s * ((n - k) / s) = (n - k) / s * s := Nat.mul_comm s ((n - k) / s)
  omega

/-- `nn.Conv1d(ci, co, k, s)` applied to a `ci × n` signal: each output
channel is a bias plus the windowed dot product with that channel's kernel. -/
noncomputable def conv1d {ci n : Nat} (co k s : Nat) (hk : k ≤ n) (hs : 0 < s)
    (w : Fin co → Fin ci → Fin k → ℝ) (b : Fin co → ℝ)
    (x : Fin ci → Fin n → ℝ) : Fin co → Fin (convOut k s n) → ℝ :=
  fun o i => b o + ∑ c : Fin ci, ∑ j : Fin k,
    w o c j * x c ⟨s * i.val + j.val, window_index_lt hk hs i j⟩

/-- `nn.BatchNorm1d(c)` as the per-channel affine normalization it applies
during the forward pass, with its statistics and affine weights as
parameters. -/
noncomputable def batchNorm1d {c n : Nat} (g b mean variance : Fin c → ℝ)
    (eps : ℝ) (x : Fin c → Fin n → ℝ) : Fin c → Fin n → ℝ :=
  fun ch i => g ch * (x ch i - mean ch) / Real.sqrt (variance ch + eps) + b ch

/-- `F.relu`. -/
noncomputable def relu {c n : Nat} (x : Fin c → Fin n → ℝ) : Fin c → Fin n → ℝ :=
  fun ch i => max (x ch i) 0

/-- `nn.MaxPool1d(k)` (kernel `k`, stride `k`): the maximum over each
window. -/
noncomputable def maxPool1d {c n : Nat} (k : Nat) (hk : 0 < k) (hn : k ≤ n)
    (x : Fin c → Fin n → ℝ) : Fin c → Fin (convOut k k n) → ℝ :=
  fun ch i =>
    Finset.univ.sup' ⟨⟨0, hk⟩, Finset.mem_univ _⟩
      fun j : Fin k => x ch ⟨k * i.val + j.val, window_index_lt hn hk i j⟩

/-- `nn.AvgPool1d(k)` (kernel `k`, stride `k`): the mean over each window. -/
noncomputable def avgPool1d {c n : Nat} (k : Nat) (hk : 0 < k) (hn : k ≤ n)
    (x : Fin c → Fin n → ℝ) : Fin c → Fin (convOut k k n) → ℝ :=
  fun ch i =>
    (∑ j : Fin k, x ch ⟨k * i.val + j.val, window_index_lt hn hk i j⟩) / (k : ℝ)

/-- `x.permute(0, 2, 1)` on one batch element: swap the channel and
temporal axes. -/
def permuteCT {c n : Nat} (x : Fin c → Fin n → ℝ) : Fin n → Fin c → ℝ :=
  fun i ch => x ch i

/-- `nn.Linear(dIn, dOut)` applied along the last axis. -/
noncomputable def linearLayer {t dIn : Nat} (dOut : Nat) (w : Fin dOut → Fin dIn → ℝ)
    (b : Fin dOut → ℝ) (x : Fin t → Fin dIn → ℝ) : Fin t → Fin dOut → ℝ :=
  fun i o => b o + ∑ c : Fin dIn, w o c * x i c

/-- `F.log_softmax` along a length-`m` axis. -/
noncomputable def logSoftmax {m : Nat} (v : Fin m → ℝ) : Fin m → ℝ :=
  fun i => v i - Real.log (∑ j : Fin m, Real.exp (v j))

/-- PyTorch's default `BatchNorm1d` epsilon, `1e-5`. -/
noncomputable def bnEps : ℝ := 1 / 100000

/-- The parameters of `Net`: weights and biases of the four `Conv1d`
layers and the final `Linear`, and the affine weights and statistics of
the four `BatchNorm1d` layers, with the channel counts and kernel sizes
fixed in `Net.__init__` (`Conv1d(1, 128, 80, 4)`, `Conv1d(128, 128, 3)`,
`Conv1d(128, 256, 3)`, `Conv1d(256, 512, 3)`, `Linear(512, 10)`). -/
structure NetParams where
  conv1w : Fin 128 → Fin 1 → Fin 80 → ℝ
  conv1b : Fin 128 → ℝ
  bn1g : Fin 128 → ℝ
  bn1b : Fin 128 → ℝ
  bn1m : Fin 128 → ℝ
  bn1v : Fin 128 → ℝ
  conv2w : Fin 128 → Fin 128 → Fin 3 → ℝ
  conv2b : Fin 128 → ℝ
  bn2g : Fin 128 → ℝ
  bn2b : Fin 128 → ℝ
  bn2m : Fin 128 → ℝ
  bn2v : Fin 128 → ℝ
  conv3w : Fin 256 → Fin 128 → Fin 3 → ℝ
  conv3b : Fin 256 → ℝ
  bn3g : Fin 256 → ℝ
  bn3b : Fin 256 → ℝ
  bn3m : Fin 256 → ℝ
  bn3v : Fin 256 → ℝ
  conv4w : Fin 512 → Fin 256 → Fin 3 → ℝ
  conv4b : Fin 512 → ℝ
  bn4g : Fin 512 → ℝ
  bn4b : Fin 512 → ℝ
  bn4m : Fin 512 → ℝ
  bn4v : Fin 512 → ℝ
  fc1w : Fin 10 → Fin 512 → ℝ
  fc1b : Fin 10 → ℝ

/-- The temporal length of `Net.forward`'s output: the input length 32000
pushed through the four convolution/pool stages and the global average
pool. -/
def netOutLen : Nat :=
  convOut 30 30 (convOut 4 4 (convOut 3 1 (convOut 4 4 (convOut 3 1
    (convOut 4 4 (convOut 3 1 (convOut 4 4 (convOut 80 4 32000))))))))

/-- `Net.forward`: the strictly sequential stack
`conv → bn → relu → pool` four times, then `avgPool(30)`,
`permute(0, 2, 1)`, `fc1` and `log_softmax(dim = 2)`, on one batch
element. -/
noncomputable def Net.forward (p : NetParams) (x : Fin 1 → Fin 32000 → ℝ) :
    Fin netOutLen → Fin 10 → ℝ :=
  let s1 := maxPool1d 4 (by decide) (by decide)
    (relu (batchNorm1d p.bn1g p.bn1b p.bn1m p.bn1v bnEps
      (conv1d 128 80 4 (by decide) (by decide) p.conv1w p.conv1b x)))
  let s2 := maxPool1d 4 (by decide) (by decide)
    (relu (batchNorm1d p.bn2g p.bn2b p.bn2m p.bn2v bnEps
      (conv1d 128 3 1 (by decide) (by decide) p.conv2w p.conv2b s1)))
  let s3 := maxPool1d 4 (by decide) (by decide)
    (relu (batchNorm1d p.bn3g p.bn3b p.bn3m p.bn3v bnEps
      (conv1d 256 3 1 (by decide) (by decide) p.conv3w p.conv3b s2)))
  let s4 := maxPool1d 4 (by decide) (by decide)
    (relu (batchNorm1d p.bn4g p.bn4b p.bn4m p.bn4v bnEps
      (conv1d 512 3 1 (by decide) (by decide) p.conv4w p.conv4b s3)))
  let pooled := avgPool1d 30 (by decide) (by decide) s4
  let projected := linearLayer 10 p.fc1w p.fc1b (permuteCT pooled)
  fun t => logSoftmax (projected t)

lemma sum_exp_logSoftmax {m : Nat} [NeZero m] (v : Fin m → ℝ) :
    ∑ i : Fin m, Real.exp (logSoftmax v i) = 1 := by
  have hpos : (0 : ℝ) < ∑ j : Fin m, Real.exp (v j) :=
    Finset.sum_pos (fun j _ => Real.exp_pos (v j)) Finset.univ_nonempty
  simp only [logSoftmax, Real.exp_sub, Real.exp_log hpos]
  rw [← Finset.sum_div]
  exact div_self (ne_of_gt hpos)

/- ## Concrete sample inputs used by the witnesses -/

/-- A seven-column metadata row in the UrbanSound8K layout
(file name, fsID, start, end, salience, fold, classID). -/
def sampleRow : List Cell :=
  [Cell.str "a.wav", Cell.int 7, Cell.int 0, Cell.int 0, Cell.int 0,
   Cell.int 1, Cell.int 3]

/-- A one-row metadata table. -/
def sampleRows : List (List Cell) := [sampleRow]

/-- A fold subset containing fold 1 only. -/
def sampleFolds : List Cell := [Cell.int 1]

/-- The audio directory used by the notebook. -/
def samplePath : String := "./data/UrbanSound8K/audio/"

/-- The accessor built from `sampleRows` restricted to `sampleFolds`. -/
def sampleDS : UrbanSoundDataset :=
  { file_names := [Cell.str "a.wav"], labels := [Cell.int 3],
    folders := [Cell.int 1], file_path := samplePath,
    folderList := sampleFolds }

/-- An audio-decoding collaborator that returns an empty recording for
every path. -/
def silentLoad : String → List (List ℚ) := fun _ => []

/-- A metadata row with exactly six columns whose fold matches fold 1. -/
def sixColRow : List Cell :=
  [Cell.str "b.wav", Cell.int 0, Cell.int 0, Cell.int 0, Cell.int 0,
   Cell.int 1]

/- ## The claims -/

/-- C1: for every index in range, `__getitem__` returns a waveform of
exactly 32000 values, regardless of the source recording's length:
a recording shorter than 160000 samples is zero-padded to 160000 and one
of 160000 or more samples is truncated to its first 160000 samples before
every fifth sample is kept. -/
theorem getItem_waveform_length (load : String → List (List ℚ))
    (ds : UrbanSoundDataset) (index : Nat) (w : List ℚ) (label : Cell)
    (h : ds.getItem load index = some (w, label)) : w.length = 32000 := by
  simp only [UrbanSoundDataset.getItem, Option.bind_eq_bind,
    Option.bind_eq_some] at h
  obtain ⟨fold, hfold, h⟩ := h
  obtain ⟨name, hname, h⟩ := h
  obtain ⟨nameStr, hstr, h⟩ := h
  obtain ⟨lab, hlabel, h⟩ := h
  injection h with h2
  rw [← (Prod.mk.injEq _ _ _ _).mp h2 |>.1]
  exact soundFormatted_length _

/-- Witness for C1 at the one-row accessor and the silent loader. -/
theorem getItem_waveform_length_witness :
    (List.replicate 32000 (0 : ℚ)).length = 32000 := by
  refine getItem_waveform_length silentLoad sampleDS 0
    (List.replicate 32000 0) (Cell.int 3) ?_
  have h0 : soundFormatted (downmix []) = List.replicate 32000 0 :=
    soundFormatted_zero_helper (downmix []) (by simp [downmix])
      (by simp [downmix])
  calc UrbanSoundDataset.getItem silentLoad sampleDS 0
      = some (soundFormatted (downmix []), Cell.int 3) := rfl
    _ = some (List.replicate 32000 0, Cell.int 3) := by rw [h0]

/-- C2: decimation correctness: for every input waveform and every index
`i < 32000`, element `i` of the formatted output equals element `5 * i` of
the zero-padded/truncated 160000-sample buffer, so every fifth sample of
the buffer appears in the output in its original order. -/
theorem soundFormatted_decimation (soundData : List ℚ) (i : Nat)
    (h : i < 32000) :
    (soundFormatted soundData).getD i 0 = (tempData soundData).getD (5 * i) 0 :=
  everyFifth_getD (tempData soundData) i

/-- Witness for C2 at the empty recording and index 3. -/
theorem soundFormatted_decimation_witness :
    (soundFormatted []).getD 3 0 = (tempData []).getD 15 0 :=
  soundFormatted_decimation [] 3 (by norm_num)

/-- C8: a source recording that is all zeros and shorter than 160000
samples is formatted to the all-zero waveform of length 32000. -/
theorem soundFormatted_all_zero (soundData : List ℚ)
    (h1 : soundData.length < 160000) (h2 : ∀ x ∈ soundData, x = 0) :
    soundFormatted soundData = List.replicate 32000 0 :=
  soundFormatted_zero_helper soundData h1 h2

/-- Witness for C8 at the empty recording. -/
theorem soundFormatted_all_zero_witness :
    soundFormatted [] = List.replicate 32000 0 :=
  soundFormatted_all_zero [] (by simp) (by simp)

/-- C9: `__getitem__` leaves every field of the accessor unchanged (file
names, labels, folder numbers, file path, fold list): viewed as a method
on the object state it returns the input state untouched, paired with the
value of the pure index-to-(waveform, label) function. -/
theorem getItem_preserves_state (load : String → List (List ℚ))
    (ds : UrbanSoundDataset) (index : Nat) :
    ds.getItemMethod load index =
      (ds.getItem load index).map fun r => (ds, r) := by
  unfold UrbanSoundDataset.getItemMethod UrbanSoundDataset.getItem
  cases ds.folders[index]? with
  | none => rfl
  | some fold =>
    cases ds.file_names[index]? with
    | none => rfl
    | some name =>
      cases name with
      | int n => rfl
      | str s =>
        cases ds.labels[index]? with
        | none => rfl
        | some label => rfl

/-- C3: for every metadata table and fold subset, a successfully
constructed accessor reports a count equal to the number of metadata rows
whose fold entry (column 5) lies in the fold subset. -/
theorem len_counts_matching_rows (rows : List (List Cell))
    (file_path : String) (folderList : List Cell) (ds : UrbanSoundDataset)
    (h : UrbanSoundDataset.init rows file_path folderList = some ds) :
    ds.len = rows.countP (rowMatches folderList) := by
  rw [UrbanSoundDataset.init] at h
  have hlen := initAux_length folderList rows _ ds h
  simpa [UrbanSoundDataset.len] using hlen

/-- Witness for C3 at the one-row table restricted to fold 1. -/
theorem len_counts_matching_rows_witness :
    sampleDS.len = sampleRows.countP (rowMatches sampleFolds) :=
  len_counts_matching_rows sampleRows samplePath sampleFolds sampleDS
    (by decide)

/-- C4 counterexample: on an empty test set the accuracy computation
divides by zero and produces no well-defined result, refuting the claim
that the division is well-defined (non-crashing) there. -/
theorem testAccuracy_empty_none : testAccuracy [] = none := rfl

/-- C4 (amended): the evaluation phase reports accuracy as the match
count divided by the total test-set size; on a nonempty test set where
every prediction equals its true label it reports 100%, while on an empty
test set the division by zero yields no well-defined result (the Python
float division raises). -/
theorem testAccuracy_all_match (pairs : List (Nat × Nat))
    (hne : pairs ≠ []) (hall : ∀ pt ∈ pairs, pt.1 = pt.2) :
    testAccuracy pairs = some 100 := by
  have hlen : pairs.length ≠ 0 := fun hc => hne (List.eq_nil_of_length_eq_zero hc)
  have hcount : correctCount pairs = pairs.length := by
    unfold correctCount
    apply List.countP_eq_length.mpr
    intro a ha
    simpa using hall a ha
  unfold testAccuracy
  rw [if_neg hlen, hcount]
  have hq : (pairs.length : ℚ) ≠ 0 := Nat.cast_ne_zero.mpr hlen
  rw [mul_div_assoc, div_self hq, mul_one]

/-- Witness for C4 at a one-element test set with a correct prediction. -/
theorem testAccuracy_all_match_witness : testAccuracy [(2, 2)] = some 100 :=
  testAccuracy_all_match [(2, 2)] (by decide) (by decide)

lemma initAux_isSome (folderList : List Cell) :
    ∀ rows : List (List Cell), (∀ r ∈ rows, 7 ≤ r.length) →
      ∀ acc, (UrbanSoundDataset.initAux folderList rows acc).isSome := by
  intro rows
  induction rows with
  | nil => intro _ acc; simp [UrbanSoundDataset.initAux]
  | cons r rest ih =>
    intro h acc
    have hr : 7 ≤ r.length := h r (List.mem_cons_self r rest)
    have hrest : ∀ q ∈ rest, 7 ≤ q.length :=
      fun q hq => h q (List.mem_cons_of_mem r hq)
    rw [UrbanSoundDataset.initAux]
    cases h5 : r[5]? with
    | none =>
      have := List.getElem?_eq_none_iff.mp h5
      omega
    | some fold =>
      simp only [h5]
      by_cases hmem : fold ∈ folderList
      · rw [if_pos hmem]
        cases h0 : r[0]? with
        | none =>
          have := List.getElem?_eq_none_iff.mp h0
          omega
        | some name =>
          cases h6 : r[6]? with
          | none =>
            have := List.getElem?_eq_none_iff.mp h6
            omega
          | some label =>
            simp only [h0, h6]
            exact ih hrest _
      · rw [if_neg hmem]
        exact ih hrest _

lemma matchedTriples_take7 (folderList : List Cell) :
    ∀ rows : List (List Cell),
      matchedTriples (rows.map fun r => r.take 7) folderList =
        matchedTriples rows folderList := by
  intro rows
  induction rows with
  | nil => rfl
  | cons r rest ih =>
    have e5 : (r.take 7)[5]? = r[5]? := by simp [List.getElem?_take]
    have e0 : (r.take 7)[0]? = r[0]? := by simp [List.getElem?_take]
    have e6 : (r.take 7)[6]? = r[6]? := by simp [List.getElem?_take]
    simp only [List.map_cons, matchedTriples, List.filterMap_cons] at *
    rw [e5, e0, e6, ih]

/-- C5 counterexample: construction from a metadata table with exactly six
ordered columns fails — the class label is read positionally from the
seventh column, which does not exist. -/
theorem init_six_columns_fails :
    UrbanSoundDataset.init [sixColRow] samplePath [Cell.int 1] = none := by
  decide

/-- C5 (amended): for every metadata table each of whose rows has at least
seven ordered columns, construction succeeds, and it reads the file name,
fold number and class label positionally from within the first seven
columns — no column past the seventh is accessed, since construction is
unchanged when every row is truncated to its first seven columns. -/
theorem init_seven_columns (rows : List (List Cell)) (file_path : String)
    (folderList : List Cell) (h : ∀ r ∈ rows, 7 ≤ r.length) :
    (UrbanSoundDataset.init rows file_path folderList).isSome ∧
    UrbanSoundDataset.init (rows.map fun r => r.take 7) file_path folderList =
      UrbanSoundDataset.init rows file_path folderList := by
  have h2 : ∀ q ∈ rows.map (fun r => r.take 7), 7 ≤ q.length := by
    intro q hq
    obtain ⟨r0, hr0, rfl⟩ := List.mem_map.mp hq
    have := h r0 hr0
    simp only [List.length_take]
    omega
  have hs1 : (UrbanSoundDataset.init rows file_path folderList).isSome :=
    initAux_isSome folderList rows h _
  have hs2 : (UrbanSoundDataset.init (rows.map fun r => r.take 7)
      file_path folderList).isSome :=
    initAux_isSome folderList _ h2 _
  refine ⟨hs1, ?_⟩
  obtain ⟨ds1, hds1⟩ := Option.isSome_iff_exists.mp hs1
  obtain ⟨ds2, hds2⟩ := Option.isSome_iff_exists.mp hs2
  rw [hds1, hds2]
  rw [UrbanSoundDataset.init] at hds1 hds2
  obtain ⟨a1, b1, c1, d1, f1⟩ := initAux_eq folderList rows _ ds1 hds1
  obtain ⟨a2, b2, c2, d2, f2⟩ := initAux_eq folderList _ _ ds2 hds2
  rw [matchedTriples_take7] at a2 b2 c2
  cases ds1
  cases ds2
  simp_all

/-- Witness for C5 at the one-row, seven-column table. -/
theorem init_seven_columns_witness :
    (UrbanSoundDataset.init sampleRows samplePath sampleFolds).isSome ∧
    UrbanSoundDataset.init (sampleRows.map fun r => r.take 7) samplePath
        sampleFolds =
      UrbanSoundDataset.init sampleRows samplePath sampleFolds :=
  init_seven_columns sampleRows samplePath sampleFolds (by decide)

/-- C6: in the training run, the scheduler is stepped exactly once per
epoch before that epoch's training pass — during each of the ten epochs
`e` the scheduler's step counter already equals `e`, including epoch 1,
before any training of that epoch — and the learning rate in effect
during epoch `e` is the pure function
`initialLR * stepGamma ^ (e / stepSize)` of the epoch number alone, which
is reduced by the fixed factor `stepGamma = 0.1` after every
`stepSize = 20` scheduler steps, independent of observed loss. -/
theorem scheduler_open_loop :
    (∀ e : Fin 10,
      (loopSchedState (e.val + 1)).lastEpoch = e.val + 1 ∧
      (loopSchedState (e.val + 1)).lr =
        initialLR * stepGamma ^ ((e.val + 1) / stepSize)) ∧
    ∀ n : Nat, (loopSchedState (n + stepSize)).lr =
      stepGamma * (loopSchedState n).lr := by
  constructor
  · intro e
    rw [loopSchedState_eq]
    exact ⟨rfl, rfl⟩
  · intro n
    simp only [loopSchedState_eq]
    have hdiv : (n + stepSize) / stepSize = n / stepSize + 1 :=
      Nat.add_div_right n (by norm_num [stepSize])
    rw [hdiv, pow_succ]
    ring

lemma netOutLen_eq_one : netOutLen = 1 := by decide

/-- C7: for every parameter assignment and every 1×32000 input waveform,
the forward pass returns a 1×10 output whose sole row is a valid
log-probability vector over the 10 classes: the exponentials of its
entries sum to exactly 1 in the real-valued model. -/
theorem forward_log_prob_vector (p : NetParams) (x : Fin 1 → Fin 32000 → ℝ) :
    netOutLen = 1 ∧
    ∀ t : Fin netOutLen, ∑ j : Fin 10, Real.exp (Net.forward p x t j) = 1 := by
  refine ⟨netOutLen_eq_one, fun t => ?_⟩
  simp only [Net.forward]
  exact sum_exp_logSoftmax _

/-- C10: after construction, the file-name, label and folder lists all
have length equal to the reported count; entry `i` of each comes from the
same `i`-th matching metadata row in original row order; and for every
in-range index, retrieval reads all three lists in bounds and pairs the
waveform loaded from that row's fold and file name with that same row's
label. -/
theorem init_lists_aligned (load : String → List (List ℚ))
    (rows : List (List Cell)) (file_path : String) (folderList : List Cell)
    (ds : UrbanSoundDataset)
    (h : UrbanSoundDataset.init rows file_path folderList = some ds) :
    ds.file_names.length = ds.len ∧ ds.labels.length = ds.len ∧
    ds.folders.length = ds.len ∧
    ∀ i, i < ds.len → ∃ t : Cell × Cell × Cell,
      (matchedTriples rows folderList)[i]? = some t ∧
      ds.file_names[i]? = some t.1 ∧ ds.folders[i]? = some t.2.1 ∧
      ds.labels[i]? = some t.2.2 ∧
      ∀ s : String, t.1 = Cell.str s →
        ds.getItem load i =
          some (soundFormatted (downmix (load (mkPath file_path t.2.1 s))),
            t.2.2) := by
  rw [UrbanSoundDataset.init] at h
  obtain ⟨e1, e2, e3, e4, e5⟩ := initAux_eq folderList rows _ ds h
  simp only [List.nil_append] at e1 e2 e3
  have hlen : ds.len = (matchedTriples rows folderList).length := by
    rw [UrbanSoundDataset.len, e1, List.length_map]
  refine ⟨rfl, ?_, ?_, ?_⟩
  · rw [e2, List.length_map, hlen]
  · rw [e3, List.length_map, hlen]
  · intro i hi
    rw [hlen] at hi
    have hn : ds.file_names[i]? = some (matchedTriples rows folderList)[i].1 := by
      rw [e1, List.getElem?_map, List.getElem?_eq_getElem hi]
      rfl
    have hf : ds.folders[i]? = some (matchedTriples rows folderList)[i].2.1 := by
      rw [e3, List.getElem?_map, List.getElem?_eq_getElem hi]
      rfl
    have hl : ds.labels[i]? = some (matchedTriples rows folderList)[i].2.2 := by
      rw [e2, List.getElem?_map, List.getElem?_eq_getElem hi]
      rfl
    refine ⟨(matchedTriples rows folderList)[i],
      List.getElem?_eq_getElem hi, hn, hf, hl, ?_⟩
    intro s hs
    simp only [UrbanSoundDataset.getItem, Option.bind_eq_bind, hf, hn, hl,
      Option.some_bind, hs, cellAsString, e4]

/-- Witness for C10 at the one-row accessor and the silent loader. -/
theorem init_lists_aligned_witness :
    sampleDS.file_names.length = sampleDS.len ∧
    sampleDS.labels.length = sampleDS.len ∧
    sampleDS.folders.length = sampleDS.len ∧
    ∀ i, i < sampleDS.len → ∃ t : Cell × Cell × Cell,
      (matchedTriples sampleRows sampleFolds)[i]? = some t ∧
      sampleDS.file_names[i]? = some t.1 ∧ sampleDS.folders[i]? = some t.2.1 ∧
      sampleDS.labels[i]? = some t.2.2 ∧
      ∀ s : String, t.1 = Cell.str s →
        sampleDS.getItem silentLoad i =
          some (soundFormatted (downmix (silentLoad
            (mkPath samplePath t.2.1 s))), t.2.2) :=
  init_lists_aligned silentLoad sampleRows samplePath sampleFolds sampleDS
    (by decide)

end AudioClassifier
